import Mathlib

/-!
Verification development for the AI-daily-news dashboard controller
(`src/web/js/app.js`).  The JavaScript is shallowly embedded: JSON values
become optional record fields, the process-wide `state` object becomes an
explicit `AppState` record threaded through each handler, DOM writes become
string-valued fields of `AppState`, and the two `fetch` suspension points
become an explicit `Except`-valued fetch outcome consumed by the loader.
-/

namespace AINews

/-- JavaScript string truthiness for `a || d`: the default is taken when the
value is absent (`undefined`) or the empty string. -/
def jsOr (o : Option String) (d : String) : String :=
  match o with
  | none => d
  | some s => if s = "" then d else s

/-- JavaScript object property lookup on an object literal modelled as an
association list (an object has at most one binding per key). -/
def jsLookup (m : List (String × Int)) (k : String) : Option Int :=
  (m.find? fun p => p.fst == k).map fun p => p.snd

/-- JavaScript `Array.prototype.indexOf`: first index of the element, `-1`
when it does not occur. -/
def jsIndexOf (l : List String) (x : String) : Int :=
  if x ∈ l then ((l.indexOf x : Nat) : Int) else -1

/-- `state.dates.indexOf(state.currentDate)` where `currentDate` may be
`null`; `indexOf` of a non-string value over string entries yields `-1`. -/
def jsIndexOfOpt (l : List String) (o : Option String) : Int :=
  match o with
  | none => -1
  | some x => jsIndexOf l x

/-- JavaScript `array.map(f).join(s-empty)` written as a structurally recursive
concatenation. -/
def joinAll : List String → String
  | [] => ""
  | s :: rest => s ++ joinAll rest

/-- HTML serialization of one text-node character, as produced by the
browser in the `div.textContent = text; return div.innerHTML` round trip of
the source function `escapeHtml` (the standard HTML text serialization
escapes the ampersand, the angle brackets and the no-break space). -/
def escapeChar (c : Char) : String :=
  if c = '&' then "&amp;"
  else if c = '<' then "&lt;"
  else if c = '>' then "&gt;"
  else if c = '\u00A0' then "&nbsp;"
  else String.singleton c

/-- Source `escapeHtml(text)`: falsy input (here: the empty string) returns
the empty string, otherwise the text-node serialization of the string. -/
def escapeHtml (text : String) : String :=
  if text = "" then "" else joinAll (text.data.map escapeChar)

/-- One entry of `statistics.by_date` as a JSON object: the fields the code
reads (`domestic`, `international`) and the fields the spec's data model
names (`domestic_count`, `international_count`) are all optional. -/
structure ByDateEntry where
  date : String := ""
  domestic : Option Int := none
  international : Option Int := none
  domestic_count : Option Int := none
  international_count : Option Int := none
deriving DecidableEq, Repr

/-- The manifest's `statistics` object (§3 of the spec); every field may be
absent in the JSON. -/
structure Statistics where
  total_days : Option Int := none
  total_domestic : Option Int := none
  total_international : Option Int := none
  by_importance : Option (List (String × Int)) := none
  by_date : Option (List ByDateEntry) := none
deriving DecidableEq, Repr

/-- The manifest (`index.json`). -/
structure IndexData where
  dates : Option (List String) := none
  statistics : Option Statistics := none
  last_updated : Option String := none
deriving DecidableEq, Repr

/-- One news record of a daily file. -/
structure NewsItem where
  index : Int := 0
  title : Option String := none
  summary : Option String := none
  source : Option String := none
  url : Option String := none
  importance : Option String := none
  tags : Option (List String) := none
deriving DecidableEq, Repr

/-- A daily file (`daily/{date}.json`). -/
structure DailyRecord where
  domestic : Option (List NewsItem) := none
  international : Option (List NewsItem) := none
  summary : Option String := none
deriving DecidableEq, Repr

/-- Outcome of one `fetch`: network error, non-success HTTP status, or a
body that fails JSON parsing.  All three are caught by the same handler. -/
inductive FetchError where
  | networkError : FetchError
  | httpError (status : Nat) : FetchError
  | parseError : FetchError
deriving DecidableEq, Repr

/-- The process-wide `state` object plus the DOM slots the controller
writes: the two news panels, the date selector (its option list and its
selected value), the summary and last-updated labels. -/
structure AppState where
  currentDate : Option String := none
  dates : List String := []
  statistics : Option Statistics := none
  domesticPanel : String := ""
  internationalPanel : String := ""
  dateOptions : List (String × String) := []
  selectedValue : Option String := none
  summaryText : String := ""
  lastUpdatedText : String := ""
deriving DecidableEq, Repr

/-- Source `getImportanceClass(importance)`: the three recognized Chinese
labels map to their visual class, everything else (including an absent
value) defaults to `"medium"`. -/
def getImportanceClass (imp : Option String) : String :=
  match imp with
  | some s =>
    if s = "高" then "high"
    else if s = "中" then "medium"
    else if s = "低" then "low"
    else "medium"
  | none => "medium"

/-- One tag chip: `` `<span class="tag">${tag}</span>` `` — the tag is
interpolated with no escaping. -/
def tagSpan (t : String) : String :=
  "<span class=\"tag\">" ++ t ++ "</span>"

/-- `(news.tags || []).map(tag => ...).join(s-empty)`. -/
def renderTags (ts : List String) : String :=
  joinAll (ts.map tagSpan)

/-- The template literal rendering a single news item (source lines
139–153), with the exact literal segments of the source template. -/
def renderNewsItem (n : NewsItem) : String :=
  let importanceClass := getImportanceClass n.importance
  let importanceText := jsOr n.importance "中"
  let tagsStr := renderTags (n.tags.getD [])
  let urlStr := jsOr n.url ""
  "\n            <div class=\"news-item " ++ importanceClass ++
  "\">\n                <div class=\"news-header\">\n                    <span class=\"news-index\">" ++
  toString n.index ++
  "</span>\n                    <h4 class=\"news-title\">" ++
  escapeHtml (jsOr n.title "") ++
  "</h4>\n                    <span class=\"importance-badge " ++
  importanceClass ++
  "\">" ++
  importanceText ++
  "</span>\n                </div>\n                <p class=\"news-summary\">" ++
  escapeHtml (jsOr n.summary "") ++
  "</p>\n                <div class=\"news-meta\">\n                    <span>📰 " ++
  escapeHtml (jsOr n.source "N/A") ++
  "</span>\n                    " ++
  (if urlStr = "" then ""
   else "<a href=\"" ++ urlStr ++ "\" target=\"_blank\">🔗 查看原文</a>") ++
  "\n                </div>\n                " ++
  (if tagsStr = "" then ""
   else "<div class=\"news-tags\">" ++ tagsStr ++ "</div>") ++
  "\n            </div>\n        "

/-- The per-category empty-state placeholder of `renderNews`. -/
def emptyCategoryHtml (category : String) : String :=
  "\n            <div class=\"empty-state\">\n                <div class=\"icon\">📭</div>\n                <p>暂无" ++
  category ++
  "动态</p>\n            </div>\n        "

/-- Source `renderNews(containerId, newsList, category)`: the string the
container's `innerHTML` is set to. -/
def renderNews (newsList : List NewsItem) (category : String) : String :=
  if newsList.isEmpty then emptyCategoryHtml category
  else joinAll (newsList.map renderNewsItem)

/-- The loading placeholder written into both panels while a daily fetch is
in flight. -/
def loadingHtml : String :=
  "<div class=\"loading\">加载中...</div>"

/-- The placeholder of `showEmptyState` (no-data / daily-failure state). -/
def emptyStateHtml : String :=
  "\n        <div class=\"empty-state\">\n            <div class=\"icon\">📭</div>\n            <p>暂无数据，请等待自动更新</p>\n        </div>\n    "

/-- Source `showEmptyState()`: both panels get the no-data placeholder. -/
def showEmptyState (st : AppState) : AppState :=
  { st with domesticPanel := emptyStateHtml, internationalPanel := emptyStateHtml }

/-- Synchronous prefix of `loadDailyNews(date)`: the guard `if (!date)
return`, then `state.currentDate = date`, the selector value, and the
loading placeholders — everything that runs before the fetch suspends. -/
def dailyLoading (date : String) (st : AppState) : AppState :=
  if date = "" then st
  else
    { st with
      currentDate := some date
      selectedValue := some date
      domesticPanel := loadingHtml
      internationalPanel := loadingHtml }

/-- Source `loadDailyNews(date)` run to completion against an explicit
fetch outcome: success renders both lists and the summary, failure calls
`showEmptyState`.  No demo fallback exists on this path. -/
def loadDailyNews (date : String) (result : Except FetchError DailyRecord) (st : AppState) : AppState :=
  if date = "" then st
  else
    let mid := dailyLoading date st
    match result with
    | Except.ok d =>
      { mid with
        domesticPanel := renderNews (d.domestic.getD []) "国内"
        internationalPanel := renderNews (d.international.getD []) "国际"
        summaryText := jsOr d.summary "暂无摘要" }
    | Except.error _ => showEmptyState mid

/-- Source `populateDateSelector()`: the selector is cleared and receives
one option per date (value = the date, text = `formatDate(date)`, the
locale-dependent formatter threaded as `fmt`); when the list is non-empty
the first (newest) date becomes the selected value and `currentDate`. -/
def populateDateSelector (fmt : String → String) (st : AppState) : AppState :=
  let opts := st.dates.map fun d => (d, fmt d)
  match st.dates with
  | [] => { st with dateOptions := opts }
  | d :: _ =>
    { st with
      dateOptions := opts
      selectedValue := some d
      currentDate := some d }

/-- The demo `domestic` list of `loadDemoData()`. -/
def demoDomestic : List NewsItem :=
  [ { index := 1
      title := some "智谱AI开源AutoGLM项目"
      summary := some "12月9日消息，智谱AI宣布开源AutoGLM项目，经过32个月研发构建完整Phone Use能力框架，使AI能通过视觉理解手机界面完成点击、滑动等操作。"
      importance := some "高"
      source := some "智谱AI"
      tags := some ["智谱AI", "开源", "AutoGLM"] },
    { index := 2
      title := some "蚂蚁集团推出灵光网页版"
      summary := some "12月9日消息，蚂蚁集团正式推出全模态通用AI助手灵光网页版，延续\"30秒用自然语言生成小应用\"核心优势。"
      importance := some "高"
      source := some "蚂蚁集团"
      tags := some ["蚂蚁集团", "灵光", "AI助手"] } ]

/-- The demo `international` list of `loadDemoData()`. -/
def demoInternational : List NewsItem :=
  [ { index := 1
      title := some "特朗普允许英伟达向中国出售H200芯片"
      summary := some "12月9日消息，美国总统特朗普宣布允许英伟达向中国出售H200人工智能芯片，但要求英伟达将25%的收益支付给美国政府。"
      importance := some "高"
      source := some "Reuters"
      tags := some ["英伟达", "AI芯片", "政策"] },
    { index := 2
      title := some "OpenAI推出o3推理模型"
      summary := some "12月9日消息，OpenAI正式发布o3系列推理模型，在复杂推理任务上表现出色，成为目前最强大的AI推理模型之一。"
      importance := some "高"
      source := some "OpenAI"
      tags := some ["OpenAI", "o3", "推理模型"] } ]

/-- The demo summary line of `loadDemoData()`. -/
def demoSummary : String :=
  "今日共采集到5条国内动态和5条国际动态。重点关注：智谱AI开源AutoGLM; 特朗普允许H200对华出口; OpenAI发布o3模型。"

/-- The demo statistics of `loadDemoData()`; `today` stands for
`new Date().toISOString().split(T)[0]`, the current date string.  Note the
demo `by_date` entry itself uses the field names `domestic` and
`international`. -/
def demoStatistics (today : String) : Statistics :=
  { total_days := some 1
    total_domestic := some 5
    total_international := some 5
    by_importance := some [("高", 4), ("中", 4), ("低", 2)]
    by_date := some [{ date := today, domestic := some 5, international := some 5 }] }

/-- Source `loadDemoData()`: installs exactly one date (today), the demo
statistics, repopulates the selector, and renders the demo news into both
panels. -/
def loadDemoData (fmt : String → String) (today : String) (st : AppState) : AppState :=
  let st1 := { st with dates := [today], statistics := some (demoStatistics today) }
  let st2 := populateDateSelector fmt st1
  { st2 with
    domesticPanel := renderNews demoDomestic "国内"
    internationalPanel := renderNews demoInternational "国际"
    summaryText := demoSummary }

/-- Source `loadIndex()` against an explicit fetch outcome.  On success it
stores `data.dates || []` and `data.statistics || {}`, updates the
last-updated label, and populates the selector; on any failure (network,
HTTP status, JSON parse) it falls back to `loadDemoData`.  The loader
consumes exactly one fetch outcome: no retry exists. -/
def loadIndex (fmt : String → String) (today : String)
    (result : Except FetchError IndexData) (st : AppState) : AppState :=
  match result with
  | Except.ok data =>
    populateDateSelector fmt
      { st with
        dates := data.dates.getD []
        statistics := some (data.statistics.getD {})
        lastUpdatedText := "最后更新：" ++ jsOr data.last_updated "未知" }
  | Except.error _ => loadDemoData fmt today st

/-- The `prev-date` click handler: move to the next older date (higher
index) unless already at the oldest.  The handler invokes `loadDailyNews`,
whose synchronous prefix `dailyLoading` performs the `currentDate` update;
the asynchronous completion never touches `currentDate`. -/
def prevHandler (st : AppState) : AppState :=
  let i := jsIndexOfOpt st.dates st.currentDate
  if i < (st.dates.length : Int) - 1 then
    dailyLoading (st.dates.getD (i + 1).toNat "") st
  else st

/-- The `next-date` click handler: move to the next newer date (lower
index) unless already at the newest. -/
def nextHandler (st : AppState) : AppState :=
  let i := jsIndexOfOpt st.dates st.currentDate
  if i > 0 then
    dailyLoading (st.dates.getD (i - 1).toNat "") st
  else st

/-- The `by_date` list the charts read: `state.statistics?.by_date || []`. -/
def chartByDate (stats : Option Statistics) : List ByDateEntry :=
  (stats.bind fun s => s.by_date).getD []

/-- The domestic value list of `initTrendChart`:
`byDate.slice(0, 14).reverse().map(d => d.domestic || 0)`. -/
def trendDomesticRaw (stats : Option Statistics) : List Int :=
  ((chartByDate stats).take 14).reverse.map fun e => e.domestic.getD 0

/-- The international value list of `initTrendChart`. -/
def trendInternationalRaw (stats : Option Statistics) : List Int :=
  ((chartByDate stats).take 14).reverse.map fun e => e.international.getD 0

/-- The domestic dataset actually handed to the chart:
`domesticData.length > 0 ? domesticData : [0]`. -/
def trendDomesticSeries (stats : Option Statistics) : List Int :=
  if (trendDomesticRaw stats).isEmpty then [0] else trendDomesticRaw stats

/-- The international dataset actually handed to the chart. -/
def trendInternationalSeries (stats : Option Statistics) : List Int :=
  if (trendInternationalRaw stats).isEmpty then [0] else trendInternationalRaw stats

/-- The last `n` entries of a list (the literal reading of the claim's
"last 14 entries of by_date"). -/
def lastEntries (n : Nat) (l : List ByDateEntry) : List ByDateEntry :=
  l.drop (l.length - n)

/-- Modelled from the spec (claim side, for comparison with the code): the
trend chart's domestic series per the claim's words — the last 14 entries
of `by_date`, reversed to chronological order, valued by each entry's
`domestic_count` field, degrading to a single zero-valued point. -/
def specTrendDomesticSeries (stats : Option Statistics) : List Int :=
  let l := (lastEntries 14 (chartByDate stats)).reverse.map fun e => e.domestic_count.getD 0
  if l.isEmpty then [0] else l

/-- Modelled from the spec (claim side): the international series per the
claim's words, valued by `international_count`. -/
def specTrendInternationalSeries (stats : Option Statistics) : List Int :=
  let l := (lastEntries 14 (chartByDate stats)).reverse.map fun e => e.international_count.getD 0
  if l.isEmpty then [0] else l

/-- The default object of `state.statistics?.by_importance || {高:0, 中:0, 低:0}`. -/
def defaultByImportance : List (String × Int) :=
  [("高", 0), ("中", 0), ("低", 0)]

/-- The doughnut data of `initImportanceChart`:
`[byImportance[高] || 0, byImportance[中] || 0, byImportance[低] || 0]`. -/
def importanceChartData (stats : Option Statistics) : List Int :=
  let m := (stats.bind fun s => s.by_importance).getD defaultByImportance
  [(jsLookup m "高").getD 0, (jsLookup m "中").getD 0, (jsLookup m "低").getD 0]

/-- Boolean test: `pat` begins the list `s`. -/
def isPrefOf : List Char → List Char → Bool
  | [], _ => true
  | _ :: _, [] => false
  | a :: as, b :: bs => a == b && isPrefOf as bs

/-- Boolean test: `pat` occurs contiguously inside `s`. -/
def hasSub (pat : List Char) : List Char → Bool
  | [] => pat.isEmpty
  | l@(_ :: rest) => isPrefOf pat l || hasSub pat rest

/-- The string `pat` occurs contiguously inside the string `s`. -/
def strContains (s pat : String) : Prop :=
  ∃ p q : List Char, s.data = p ++ pat.data ++ q

/-- Concrete item whose title carries a script tag (and nothing else unsafe). -/
def scriptItem : NewsItem :=
  { index := 1
    title := some "<script>alert(1)</script>"
    summary := some "x"
    source := some "s" }

/-- Concrete item whose only unsafe content is a tag string. -/
def scriptTagItem : NewsItem :=
  { index := 2
    title := some "ok"
    summary := some "ok"
    tags := some ["<script>alert(2)</script>"] }

/-- Concrete `by_date` input: 15 entries carrying both the code's field
names (`domestic`, `international`) and the spec's (`domestic_count`,
`international_count`), with distinguishable values. -/
def cexByDate : List ByDateEntry :=
  (List.range 15).map fun i =>
    { date := "d"
      domestic := some (i : Int)
      international := some (20 + (i : Int))
      domestic_count := some (100 + (i : Int))
      international_count := some (200 + (i : Int)) }

/-- Statistics wrapping `cexByDate`. -/
def cexStats : Statistics := { by_date := some cexByDate }

/-- The claim's literal importance input, keyed by the English words. -/
def englishImportance : Statistics :=
  { by_importance := some [("high", 4), ("medium", 4), ("low", 2)] }

/-- The importance input keyed the way the code reads it. -/
def chineseImportance : Statistics :=
  { by_importance := some [("高", 4), ("中", 4), ("低", 2)] }

/-- String append acts as list append on the character data. -/
theorem data_append (a b : String) : (a ++ b).data = a.data ++ b.data := rfl

/-- An occurrence inside `s` survives prepending. -/
theorem strContains_appL (a s pat : String) (h : strContains s pat) :
    strContains (a ++ s) pat := by
  obtain ⟨p, q, hp⟩ := h
  exact ⟨a.data ++ p, q, by simp [data_append, hp]⟩

/-- An occurrence inside `s` survives appending. -/
theorem strContains_appR (s b pat : String) (h : strContains s pat) :
    strContains (s ++ b) pat := by
  obtain ⟨p, q, hp⟩ := h
  exact ⟨p, q ++ b.data, by simp [data_append, hp]⟩

/-- A string occurs at the head of itself followed by anything. -/
theorem strContains_here (pat q : String) : strContains (pat ++ q) pat :=
  ⟨[], q.data, by simp [data_append]⟩

/-- A string occurs at the tail of anything followed by itself. -/
theorem strContains_tail (a pat : String) : strContains (a ++ pat) pat :=
  ⟨a.data, [], by simp [data_append]⟩

/-- Occurrence is transitive through an intermediate string. -/
theorem strContains_trans (s x pat : String) (h1 : strContains s x)
    (h2 : strContains x pat) : strContains s pat := by
  obtain ⟨p, q, hp⟩ := h1
  obtain ⟨p2, q2, hp2⟩ := h2
  exact ⟨p ++ p2, q2 ++ q, by simp [hp, hp2]⟩

/-- A string containing a non-empty string is non-empty. -/
theorem strContains_ne_empty (s pat : String) (h : strContains s pat)
    (hp : pat.data ≠ []) : s ≠ "" := by
  obtain ⟨p, q, hd⟩ := h
  intro he
  rw [he] at hd
  simp only [String.data] at hd
  rcases List.append_eq_nil.mp hd.symm with ⟨h1, _⟩
  rcases List.append_eq_nil.mp h1 with ⟨_, h3⟩
  exact hp h3

/-- `isPrefOf` decides the beginning-of-list relation. -/
theorem isPrefOf_iff (p : List Char) : ∀ s : List Char,
    isPrefOf p s = true ↔ ∃ q, s = p ++ q := by
  induction p with
  | nil => intro s; simp [isPrefOf]
  | cons a as ih =>
    intro s
    cases s with
    | nil =>
      simp [isPrefOf]
    | cons b bs =>
      simp only [isPrefOf, Bool.and_eq_true, beq_iff_eq, ih]
      constructor
      · rintro ⟨rfl, q, rfl⟩
        exact ⟨q, rfl⟩
      · rintro ⟨q, hq⟩
        rw [List.cons_append] at hq
        obtain ⟨h1, h2⟩ := List.cons.inj hq
        exact ⟨h1.symm, q, h2⟩

/-- `hasSub` decides contiguous occurrence. -/
theorem hasSub_iff (pat : List Char) : ∀ s : List Char,
    hasSub pat s = true ↔ ∃ p q, s = p ++ pat ++ q := by
  intro s
  induction s with
  | nil =>
    simp only [hasSub, List.isEmpty_iff]
    constructor
    · rintro rfl; exact ⟨[], [], rfl⟩
    · rintro ⟨p, q, hq⟩
      rcases List.append_eq_nil.mp hq.symm with ⟨h1, _⟩
      exact (List.append_eq_nil.mp h1).2
  | cons c rest ih =>
    simp only [hasSub, Bool.or_eq_true, isPrefOf_iff, ih]
    constructor
    · rintro (⟨q, hq⟩ | ⟨p, q, hq⟩)
      · exact ⟨[], q, by simp [hq]⟩
      · exact ⟨c :: p, q, by simp [hq]⟩
    · rintro ⟨p, q, hq⟩
      cases p with
      | nil => exact Or.inl ⟨q, by simpa using hq⟩
      | cons d p2 =>
        rw [List.cons_append, List.cons_append] at hq
        obtain ⟨_, h2⟩ := List.cons.inj hq
        exact Or.inr ⟨p2, q, by simpa using h2⟩

/-- `strContains` is decided by `hasSub` over the character data. -/
theorem strContains_iff_hasSub (s pat : String) :
    strContains s pat ↔ hasSub pat.data s.data = true :=
  (hasSub_iff pat.data s.data).symm

/-- Each mapped element occurs inside the joined rendering of a list. -/
theorem joinAll_contains {α : Type} (f : α → String) (l : List α) (x : α)
    (h : x ∈ l) : strContains (joinAll (l.map f)) (f x) := by
  induction l with
  | nil => cases h
  | cons a as ih =>
    rcases List.mem_cons.mp h with rfl | hmem
    · exact strContains_here (f x) (joinAll (as.map f))
    · exact strContains_appL (f a) (joinAll (as.map f)) (f x) (ih hmem)

/-- Every member item's fragment occurs inside the rendered panel. -/
theorem renderNews_contains (l : List NewsItem) (cat : String) (n : NewsItem)
    (h : n ∈ l) : strContains (renderNews l cat) (renderNewsItem n) := by
  have hne : l.isEmpty = false := by
    cases l with
    | nil => cases h
    | cons a as => rfl
  rw [renderNews, hne]
  simp only [Bool.false_eq_true, if_false]
  exact joinAll_contains renderNewsItem l n h

/-- C9: a `NewsItem` whose `importance` is absent or unrecognized gets the
`"medium"` badge class from `getImportanceClass`. -/
theorem c9_importance_default :
    getImportanceClass none = "medium"
    ∧ ∀ s : String, s ≠ "高" → s ≠ "中" → s ≠ "低" →
        getImportanceClass (some s) = "medium" := by
  constructor
  · rfl
  · intro s h1 h2 h3
    simp [getImportanceClass, h1, h2, h3]

/-- C9 witness: the unrecognized English label `"high"` and the absent
value both yield the `"medium"` class. -/
theorem c9_importance_default_witness :
    getImportanceClass (some "high") = "medium"
    ∧ getImportanceClass none = "medium" :=
  ⟨c9_importance_default.2 "high" (by decide) (by decide) (by decide),
   c9_importance_default.1⟩

/-- C5 counterexample: with the claim's literal input, keyed by the English
words `high`/`medium`/`low`, the chart data is `[0, 0, 0]`, not `[4, 4, 2]`
— the code looks up the keys `高`/`中`/`低`. -/
theorem c5_counterexample :
    importanceChartData (some englishImportance) ≠ [4, 4, 2]
    ∧ importanceChartData (some englishImportance) = [0, 0, 0] :=
  ⟨by decide, by decide⟩

/-- C5 (amended): with the `by_importance` mapping keyed `高`/`中`/`低` and
the claim's counts, the chart's series values are exactly `[4, 4, 2]`; each
of the three keys that is missing from the mapping contributes zero. -/
theorem c5_importance_amended (m : List (String × Int)) :
    importanceChartData (some chineseImportance) = [4, 4, 2]
    ∧ (jsLookup m "高" = none →
        (importanceChartData (some { by_importance := some m })).get? 0 = some 0)
    ∧ (jsLookup m "中" = none →
        (importanceChartData (some { by_importance := some m })).get? 1 = some 0)
    ∧ (jsLookup m "低" = none →
        (importanceChartData (some { by_importance := some m })).get? 2 = some 0) := by
  refine ⟨by decide, ?_, ?_, ?_⟩ <;>
    intro h <;> simp [importanceChartData, h]

/-- C5 witness: the amended statement at the concrete mapping `[(x, 9)]`,
which misses all three keys. -/
theorem c5_importance_amended_witness :
    importanceChartData (some chineseImportance) = [4, 4, 2]
    ∧ (importanceChartData (some { by_importance := some [("x", 9)] })).get? 0 = some 0
    ∧ (importanceChartData (some { by_importance := some [("x", 9)] })).get? 1 = some 0
    ∧ (importanceChartData (some { by_importance := some [("x", 9)] })).get? 2 = some 0 := by
  have h := c5_importance_amended [("x", 9)]
  exact ⟨h.1, h.2.1 (by decide), h.2.2.1 (by decide), h.2.2.2 (by decide)⟩

/-- C3 counterexample: a manifest that fetches and parses successfully but
carries an empty `dates` list leaves `state.dates` empty — the success path
never guarantees non-emptiness. -/
theorem c3_counterexample :
    ¬ ∀ (fmt : String → String) (today : String) (data : IndexData) (st : AppState),
        (loadIndex fmt today (Except.ok data) st).dates ≠ [] := by
  intro h
  exact h (fun s => s) "2025-06-01" { dates := some [] } {} rfl

/-- C3 (amended): on a successful index load, `state.dates` equals the
manifest's `dates` list (the empty list when the field is absent), so it is
non-empty exactly when the manifest supplies a non-empty `dates` list. -/
theorem c3_dates_amended (fmt : String → String) (today : String)
    (data : IndexData) (st : AppState) :
    (loadIndex fmt today (Except.ok data) st).dates = data.dates.getD []
    ∧ ((loadIndex fmt today (Except.ok data) st).dates ≠ [] ↔ data.dates.getD [] ≠ []) := by
  have hd : (loadIndex fmt today (Except.ok data) st).dates = data.dates.getD [] := by
    rw [loadIndex, populateDateSelector]
    cases hdl : data.dates.getD [] <;> simp [hdl]
  exact ⟨hd, by rw [hd]⟩

/-- C8: a successfully loaded manifest with `N` dates yields a selector
with exactly `N` options, whose values follow the manifest's order, and the
initially selected value and `currentDate` equal the first (newest) date. -/
theorem c8_selector (fmt : String → String) (today : String)
    (data : IndexData) (st : AppState) (dl : List String)
    (hdl : data.dates = some dl) :
    (loadIndex fmt today (Except.ok data) st).dateOptions.length = dl.length
    ∧ (loadIndex fmt today (Except.ok data) st).dateOptions.map Prod.fst = dl
    ∧ (loadIndex fmt today (Except.ok data) st).dateOptions = dl.map (fun d => (d, fmt d))
    ∧ (dl ≠ [] →
        (loadIndex fmt today (Except.ok data) st).selectedValue = dl.head?
        ∧ (loadIndex fmt today (Except.ok data) st).currentDate = dl.head?) := by
  rw [loadIndex, populateDateSelector]
  cases dl with
  | nil => simp [hdl]
  | cons d rest => simp [hdl, Function.comp_def]

/-- C8 witness: a two-date manifest produces two options in order, with the
newest date selected and current. -/
theorem c8_selector_witness :
    (loadIndex (fun s => s) "t" (Except.ok { dates := some ["2025-01-02", "2025-01-01"] }) {}).dateOptions.length = 2
    ∧ (loadIndex (fun s => s) "t" (Except.ok { dates := some ["2025-01-02", "2025-01-01"] }) {}).dateOptions.map Prod.fst = ["2025-01-02", "2025-01-01"]
    ∧ (loadIndex (fun s => s) "t" (Except.ok { dates := some ["2025-01-02", "2025-01-01"] }) {}).selectedValue = some "2025-01-02"
    ∧ (loadIndex (fun s => s) "t" (Except.ok { dates := some ["2025-01-02", "2025-01-01"] }) {}).currentDate = some "2025-01-02" := by
  have h := c8_selector (fun s => s) "t"
    { dates := some ["2025-01-02", "2025-01-01"] } {} ["2025-01-02", "2025-01-01"] rfl
  have h4 := h.2.2.2 (by decide)
  exact ⟨h.1, h.2.1, h4.1, h4.2⟩

/-- C6: every index fetch failure (network error, any HTTP status, or a
parse failure) falls back to the demo dataset: exactly one date — today's —
is available afterwards, and both panels hold the rendered demo news lists.
The loader consumes a single fetch outcome, so no retry occurs. -/
theorem c6_demo_fallback (fmt : String → String) (today : String)
    (e : FetchError) (st : AppState) :
    (loadIndex fmt today (Except.error e) st).dates = [today]
    ∧ (loadIndex fmt today (Except.error e) st).dates.length = 1
    ∧ (loadIndex fmt today (Except.error e) st).currentDate = some today
    ∧ (loadIndex fmt today (Except.error e) st).domesticPanel = renderNews demoDomestic "国内"
    ∧ (loadIndex fmt today (Except.error e) st).internationalPanel = renderNews demoInternational "国际"
    ∧ demoDomestic ≠ [] ∧ demoInternational ≠ []
    ∧ (loadIndex fmt today (Except.error e) st) = loadDemoData fmt today st := by
  refine ⟨rfl, rfl, rfl, rfl, rfl, by decide, by decide, rfl⟩

set_option maxRecDepth 4096 in
/-- C7: while a daily fetch is in flight both panels show the loading
placeholder; on any daily fetch failure both panels switch to the explicit
no-data placeholder, and — unlike the index loader — no demo fallback runs:
`dates` and `statistics` are left untouched. -/
theorem c7_daily_failure (date : String) (e : FetchError) (st : AppState)
    (h : date ≠ "") :
    (dailyLoading date st).domesticPanel = loadingHtml
    ∧ (dailyLoading date st).internationalPanel = loadingHtml
    ∧ (loadDailyNews date (Except.error e) st).domesticPanel = emptyStateHtml
    ∧ (loadDailyNews date (Except.error e) st).internationalPanel = emptyStateHtml
    ∧ (loadDailyNews date (Except.error e) st).dates = st.dates
    ∧ (loadDailyNews date (Except.error e) st).statistics = st.statistics
    ∧ emptyStateHtml ≠ renderNews demoDomestic "国内" := by
  rw [dailyLoading, loadDailyNews, if_neg h, if_neg h, dailyLoading, if_neg h]
  refine ⟨rfl, rfl, rfl, rfl, rfl, rfl, ?_⟩
  intro hcontra
  have : emptyStateHtml.data.take 12 = (renderNews demoDomestic "国内").data.take 12 := by
    rw [hcontra]
  exact absurd this (by decide)

/-- C7 witness: the statement at a concrete date, state and error. -/
theorem c7_daily_failure_witness :
    (dailyLoading "2025-01-01" {}).domesticPanel = loadingHtml
    ∧ (dailyLoading "2025-01-01" {}).internationalPanel = loadingHtml
    ∧ (loadDailyNews "2025-01-01" (Except.error FetchError.networkError) {}).domesticPanel = emptyStateHtml
    ∧ (loadDailyNews "2025-01-01" (Except.error FetchError.networkError) {}).internationalPanel = emptyStateHtml
    ∧ (loadDailyNews "2025-01-01" (Except.error FetchError.networkError) {}).dates = ({} : AppState).dates
    ∧ (loadDailyNews "2025-01-01" (Except.error FetchError.networkError) {}).statistics = ({} : AppState).statistics
    ∧ emptyStateHtml ≠ renderNews demoDomestic "国内" :=
  c7_daily_failure "2025-01-01" FetchError.networkError {} (by decide)

/-- C1 counterexample: on a 15-entry `by_date` carrying both field-name
conventions, the series the code builds (first 14 entries, `domestic` /
`international` fields) differs from the claim's series (last 14 entries,
`domestic_count` / `international_count` fields). -/
theorem c1_counterexample :
    ¬ (trendDomesticSeries (some cexStats) = specTrendDomesticSeries (some cexStats)
       ∧ trendInternationalSeries (some cexStats) = specTrendInternationalSeries (some cexStats))
    ∧ trendDomesticSeries (some cexStats)
        = [13, 12, 11, 10, 9, 8, 7, 6, 5, 4, 3, 2, 1, 0]
    ∧ specTrendDomesticSeries (some cexStats)
        = [114, 113, 112, 111, 110, 109, 108, 107, 106, 105, 104, 103, 102, 101] := by
  refine ⟨?_, by decide, by decide⟩
  intro h
  exact absurd h.1 (by decide)

/-- C1 (amended): the trend chart is built from the first 14 entries of
`by_date` (its most recent, the sequence being ordered newest-first),
reversed to chronological order; the two line series take each entry's
`domestic` and `international` fields (a missing value counts as zero), and
an empty `by_date` degrades to a single zero-valued point. -/
theorem c1_trend_amended (stats : Option Statistics) (bd : List ByDateEntry)
    (hbd : chartByDate stats = bd) :
    (bd ≠ [] →
      trendDomesticSeries stats = (bd.take 14).reverse.map (fun e => e.domestic.getD 0)
      ∧ trendInternationalSeries stats = (bd.take 14).reverse.map (fun e => e.international.getD 0)
      ∧ (trendDomesticSeries stats).length = min 14 bd.length
      ∧ (trendInternationalSeries stats).length = min 14 bd.length
      ∧ (∀ j : Nat, j < min 14 bd.length →
          (trendDomesticSeries stats).get? j
            = (bd.get? (min 14 bd.length - 1 - j)).map (fun e => e.domestic.getD 0)
          ∧ (trendInternationalSeries stats).get? j
            = (bd.get? (min 14 bd.length - 1 - j)).map (fun e => e.international.getD 0)))
    ∧ (bd = [] → trendDomesticSeries stats = [0] ∧ trendInternationalSeries stats = [0]) := by
  constructor
  · intro hne
    have htake : bd.take 14 ≠ [] := by
      intro h
      rcases List.take_eq_nil_iff.mp h with h14 | hnil
      · exact absurd h14 (by decide)
      · exact hne hnil
    have hrawd : trendDomesticRaw stats = (bd.take 14).reverse.map (fun e => e.domestic.getD 0) := by
      rw [trendDomesticRaw, hbd]
    have hrawi : trendInternationalRaw stats = (bd.take 14).reverse.map (fun e => e.international.getD 0) := by
      rw [trendInternationalRaw, hbd]
    have hned : (trendDomesticRaw stats).isEmpty = false := by
      rw [hrawd]
      refine List.isEmpty_eq_false.mpr ?_
      simpa using htake
    have hnei : (trendInternationalRaw stats).isEmpty = false := by
      rw [hrawi]
      refine List.isEmpty_eq_false.mpr ?_
      simpa using htake
    have hd : trendDomesticSeries stats = (bd.take 14).reverse.map (fun e => e.domestic.getD 0) := by
      rw [trendDomesticSeries, hned]
      simp [hrawd]
    have hi : trendInternationalSeries stats = (bd.take 14).reverse.map (fun e => e.international.getD 0) := by
      rw [trendInternationalSeries, hnei]
      simp [hrawi]
    have hlen : ((bd.take 14).reverse).length = min 14 bd.length := by
      simp [List.length_take]
    refine ⟨hd, hi, by rw [hd]; simpa using hlen, by rw [hi]; simpa using hlen, ?_⟩
    intro j hj
    have hjlt : j < ((bd.take 14).reverse).length := by rw [hlen]; exact hj
    have hrev : ((bd.take 14).reverse).get? j = (bd.take 14).get? (min 14 bd.length - 1 - j) := by
      rw [List.get?_reverse]
      · congr 1
        simp [List.length_take]
      · simpa [List.length_take] using hj
    have hmin : min 14 bd.length - 1 - j < 14 := by
      have h14 : min 14 bd.length ≤ 14 := Nat.min_le_left _ _
      omega
    have htk : (bd.take 14).get? (min 14 bd.length - 1 - j) = bd.get? (min 14 bd.length - 1 - j) :=
      List.get?_take hmin
    constructor
    · rw [hd, List.get?_map, hrev, htk]
    · rw [hi, List.get?_map, hrev, htk]
  · intro hnil
    subst hnil
    have hd : trendDomesticRaw stats = [] := by rw [trendDomesticRaw, hbd]; rfl
    have hi : trendInternationalRaw stats = [] := by rw [trendInternationalRaw, hbd]; rfl
    constructor
    · rw [trendDomesticSeries, hd]; rfl
    · rw [trendInternationalSeries, hi]; rfl

/-- C1 witness: the amended statement at a one-entry `by_date`. -/
theorem c1_trend_amended_witness :
    trendDomesticSeries (some { by_date := some [{ date := "2025-01-01", domestic := some 3, international := some 4 }] }) = [3]
    ∧ trendInternationalSeries (some { by_date := some [{ date := "2025-01-01", domestic := some 3, international := some 4 }] }) = [4] := by
  have h := (c1_trend_amended
    (some { by_date := some [{ date := "2025-01-01", domestic := some 3, international := some 4 }] })
    [{ date := "2025-01-01", domestic := some 3, international := some 4 }] rfl).1 (by decide)
  exact ⟨by rw [h.1]; decide, by rw [h.2.1]; decide⟩

set_option maxRecDepth 100000 in
/-- C2: the fragment rendered for a news item contains the HTML-escaped
form of its title and of its summary (likewise the full panel rendering
containing the item); for the concrete item whose title carries
`<script>`, the fragment contains the escaped form `&lt;script&gt;` and
never an un-escaped `<script` that could become a live element. -/
theorem c2_render_escapes (l : List NewsItem) (cat : String) (n : NewsItem)
    (t s : String) (hn : n ∈ l) (ht : n.title = some t) (ht0 : t ≠ "")
    (hs : n.summary = some s) (hs0 : s ≠ "") :
    strContains (renderNewsItem n) (escapeHtml t)
    ∧ strContains (renderNewsItem n) (escapeHtml s)
    ∧ strContains (renderNews l cat) (escapeHtml t)
    ∧ strContains (renderNews l cat) (escapeHtml s)
    ∧ ¬ strContains (renderNewsItem scriptItem) "<script"
    ∧ strContains (renderNewsItem scriptItem) "&lt;script&gt;" := by
  have hjt : jsOr n.title "" = t := by rw [ht]; simp [jsOr, ht0]
  have hjs : jsOr n.summary "" = s := by rw [hs]; simp [jsOr, hs0]
  have h1 : strContains (renderNewsItem n) (escapeHtml t) := by
    simp only [renderNewsItem, hjt]
    iterate 13 apply strContains_appR
    exact strContains_tail _ _
  have h2 : strContains (renderNewsItem n) (escapeHtml s) := by
    simp only [renderNewsItem, hjs]
    iterate 7 apply strContains_appR
    exact strContains_tail _ _
  refine ⟨h1, h2,
    strContains_trans _ _ _ (renderNews_contains l cat n hn) h1,
    strContains_trans _ _ _ (renderNews_contains l cat n hn) h2, ?_, ?_⟩
  · intro h
    exact absurd ((strContains_iff_hasSub _ _).mp h) (by decide)
  · exact (strContains_iff_hasSub _ _).mpr (by decide)

set_option maxRecDepth 100000 in
/-- C2 witness: the statement at the concrete script-bearing item. -/
theorem c2_render_escapes_witness :
    strContains (renderNewsItem scriptItem) (escapeHtml "<script>alert(1)</script>")
    ∧ strContains (renderNewsItem scriptItem) (escapeHtml "x")
    ∧ strContains (renderNews [scriptItem] "国内") (escapeHtml "<script>alert(1)</script>")
    ∧ strContains (renderNews [scriptItem] "国内") (escapeHtml "x")
    ∧ ¬ strContains (renderNewsItem scriptItem) "<script"
    ∧ strContains (renderNewsItem scriptItem) "&lt;script&gt;" :=
  c2_render_escapes [scriptItem] "国内" scriptItem "<script>alert(1)</script>" "x"
    (by decide) rfl (by decide) rfl (by decide)

set_option maxRecDepth 100000 in
/-- C10: every tag of a news item is interpolated verbatim into the
fragment inside its `<span class="tag">` wrapper, with no HTML escaping —
so a tag carrying `<script>` appears un-neutralized in the fragment. -/
theorem c10_tags_unescaped (l : List NewsItem) (cat : String) (n : NewsItem)
    (ts : List String) (t : String) (htags : n.tags = some ts) (ht : t ∈ ts)
    (hn : n ∈ l) :
    strContains (renderNewsItem n) (tagSpan t)
    ∧ strContains (tagSpan t) t
    ∧ strContains (renderNews l cat) (tagSpan t)
    ∧ strContains (renderNewsItem scriptTagItem) "<script>" := by
  have hts : strContains (renderTags ts) (tagSpan t) := joinAll_contains tagSpan ts t ht
  have htne : (tagSpan t).data ≠ [] := by
    intro h
    rw [tagSpan, data_append, data_append] at h
    rcases List.append_eq_nil.mp h with ⟨h1, _⟩
    rcases List.append_eq_nil.mp h1 with ⟨h2, _⟩
    exact absurd h2 (by decide)
  have hne : renderTags ts ≠ "" := strContains_ne_empty _ _ hts htne
  have h1 : strContains (renderNewsItem n) (tagSpan t) := by
    simp only [renderNewsItem, htags, Option.getD_some]
    rw [if_neg hne]
    apply strContains_appR
    apply strContains_appL
    apply strContains_appR
    apply strContains_appL
    exact hts
  refine ⟨h1, ?_, strContains_trans _ _ _ (renderNews_contains l cat n hn) h1, ?_⟩
  · exact ⟨"<span class=\"tag\">".data, "</span>".data, by rw [tagSpan, data_append, data_append]⟩
  · exact (strContains_iff_hasSub _ _).mpr (by decide)

set_option maxRecDepth 100000 in
/-- C10 witness: a tag consisting of a script element appears verbatim in
the rendered fragment of the concrete item carrying it. -/
theorem c10_tags_unescaped_witness :
    strContains (renderNewsItem scriptTagItem) (tagSpan "<script>alert(2)</script>")
    ∧ strContains (tagSpan "<script>alert(2)</script>") "<script>alert(2)</script>"
    ∧ strContains (renderNews [scriptTagItem] "国际") (tagSpan "<script>alert(2)</script>")
    ∧ strContains (renderNewsItem scriptTagItem) "<script>" :=
  c10_tags_unescaped [scriptTagItem] "国际" scriptTagItem
    ["<script>alert(2)</script>"] "<script>alert(2)</script>" rfl (by decide) (by decide)

/-- On a duplicate-free list, the element found at position `i` has index
`i`. -/
theorem indexOf_eq_of_get? {l : List String} {i : Nat} {a : String}
    (hnd : l.Nodup) (hg : l.get? i = some a) : List.indexOf a l = i := by
  have hm : a ∈ l := List.get?_mem hg
  have hlt : List.indexOf a l < l.length := List.indexOf_lt_length.mpr hm
  obtain ⟨hi, hget⟩ := List.get?_eq_some.mp hg
  have h2 : l.get ⟨List.indexOf a l, hlt⟩ = l.get ⟨i, hi⟩ := by
    rw [List.indexOf_get hlt, hget]
  have h3 := (hnd.get_inj_iff).mp h2
  exact congrArg Fin.val h3

/-- C4: with pairwise-distinct non-empty date strings and `currentDate` an
element of `dates` (the data-model invariants), the navigation handlers
never leave the bounds of `dates`: at the newest (first) date "next" is a
no-op, at the oldest (last) date "previous" is a no-op, and otherwise
"previous" moves `currentDate` to the next higher index and "next" to the
next lower index. -/
theorem c4_nav_bounds (st : AppState) (cur : String)
    (h1 : st.dates.Nodup) (h2 : ∀ d ∈ st.dates, d ≠ "")
    (hc : st.currentDate = some cur) (hm : cur ∈ st.dates) :
    (∃ d ∈ st.dates, (prevHandler st).currentDate = some d)
    ∧ (∃ d ∈ st.dates, (nextHandler st).currentDate = some d)
    ∧ (st.dates.head? = some cur → nextHandler st = st)
    ∧ (st.dates.getLast? = some cur → prevHandler st = st)
    ∧ (∀ i : Nat, st.dates.get? i = some cur →
        (i + 1 < st.dates.length → (prevHandler st).currentDate = st.dates.get? (i + 1))
        ∧ (i + 1 = st.dates.length → prevHandler st = st)
        ∧ (0 < i → (nextHandler st).currentDate = st.dates.get? (i - 1))
        ∧ (i = 0 → nextHandler st = st)) := by
  have hio : jsIndexOfOpt st.dates st.currentDate = (List.indexOf cur st.dates : Int) := by
    rw [hc]; simp [jsIndexOfOpt, jsIndexOf, hm]
  have hklt : List.indexOf cur st.dates < st.dates.length := List.indexOf_lt_length.mpr hm
  have hprev : prevHandler st =
      if (List.indexOf cur st.dates : Int) < (st.dates.length : Int) - 1 then
        dailyLoading (st.dates.getD ((List.indexOf cur st.dates : Int) + 1).toNat "") st
      else st := by
    rw [prevHandler]; rw [hio]
  have hnext : nextHandler st =
      if (List.indexOf cur st.dates : Int) > 0 then
        dailyLoading (st.dates.getD ((List.indexOf cur st.dates : Int) - 1).toNat "") st
      else st := by
    rw [nextHandler]; rw [hio]
  have movePrev : ∀ _ : List.indexOf cur st.dates + 1 < st.dates.length,
      ∀ hlt1 : List.indexOf cur st.dates + 1 < st.dates.length,
      (prevHandler st).currentDate = some (st.dates.get ⟨List.indexOf cur st.dates + 1, hlt1⟩) := by
    intro hlt0 hlt1
    have hcond : (List.indexOf cur st.dates : Int) < (st.dates.length : Int) - 1 := by omega
    have htn : ((List.indexOf cur st.dates : Int) + 1).toNat = List.indexOf cur st.dates + 1 := by
      omega
    have hdne : st.dates.get ⟨List.indexOf cur st.dates + 1, hlt1⟩ ≠ "" :=
      h2 _ (List.get_mem _ _ _)
    have hgd : st.dates.getD (List.indexOf cur st.dates + 1) ""
        = st.dates.get ⟨List.indexOf cur st.dates + 1, hlt1⟩ := by
      have hrfl : st.dates.getD (List.indexOf cur st.dates + 1) ""
          = (st.dates.get? (List.indexOf cur st.dates + 1)).getD "" := rfl
      rw [hrfl, List.get?_eq_get hlt1]
      rfl
    rw [hprev, if_pos hcond, htn, hgd, dailyLoading, if_neg hdne]
  have moveNext : ∀ _ : 0 < List.indexOf cur st.dates,
      ∀ hlt1 : List.indexOf cur st.dates - 1 < st.dates.length,
      (nextHandler st).currentDate = some (st.dates.get ⟨List.indexOf cur st.dates - 1, hlt1⟩) := by
    intro hpos hlt1
    have hcond : (List.indexOf cur st.dates : Int) > 0 := by omega
    have htn : ((List.indexOf cur st.dates : Int) - 1).toNat = List.indexOf cur st.dates - 1 := by
      omega
    have hdne : st.dates.get ⟨List.indexOf cur st.dates - 1, hlt1⟩ ≠ "" :=
      h2 _ (List.get_mem _ _ _)
    have hgd : st.dates.getD (List.indexOf cur st.dates - 1) ""
        = st.dates.get ⟨List.indexOf cur st.dates - 1, hlt1⟩ := by
      have hrfl : st.dates.getD (List.indexOf cur st.dates - 1) ""
          = (st.dates.get? (List.indexOf cur st.dates - 1)).getD "" := rfl
      rw [hrfl, List.get?_eq_get hlt1]
      rfl
    rw [hnext, if_pos hcond, htn, hgd, dailyLoading, if_neg hdne]
  have prevStay : ∀ _ : List.indexOf cur st.dates + 1 = st.dates.length,
      prevHandler st = st := by
    intro heq
    have hcond : ¬ (List.indexOf cur st.dates : Int) < (st.dates.length : Int) - 1 := by omega
    rw [hprev, if_neg hcond]
  have nextStay : ∀ _ : List.indexOf cur st.dates = 0, nextHandler st = st := by
    intro heq
    have hcond : ¬ (List.indexOf cur st.dates : Int) > 0 := by omega
    rw [hnext, if_neg hcond]
  refine ⟨?_, ?_, ?_, ?_, ?_⟩
  · by_cases hcase : List.indexOf cur st.dates + 1 < st.dates.length
    · exact ⟨st.dates.get ⟨List.indexOf cur st.dates + 1, hcase⟩,
        List.get_mem _ _ _, movePrev hcase hcase⟩
    · have heq : List.indexOf cur st.dates + 1 = st.dates.length := by omega
      exact ⟨cur, hm, by rw [prevStay heq]; exact hc⟩
  · by_cases hcase : 0 < List.indexOf cur st.dates
    · have hlt1 : List.indexOf cur st.dates - 1 < st.dates.length := by omega
      exact ⟨st.dates.get ⟨List.indexOf cur st.dates - 1, hlt1⟩,
        List.get_mem _ _ _, moveNext hcase hlt1⟩
    · have heq : List.indexOf cur st.dates = 0 := by omega
      exact ⟨cur, hm, by rw [nextStay heq]; exact hc⟩
  · intro hhead
    have hg0 : st.dates.get? 0 = some cur := by rw [List.get?_zero]; exact hhead
    exact nextStay (indexOf_eq_of_get? h1 hg0)
  · intro hlast
    have hgl : st.dates.get? (st.dates.length - 1) = some cur := by
      rw [← List.getLast?_eq_get?]; exact hlast
    have hk : List.indexOf cur st.dates = st.dates.length - 1 :=
      indexOf_eq_of_get? h1 hgl
    have hlen1 : 1 ≤ st.dates.length := List.length_pos.mpr (List.ne_nil_of_mem hm)
    exact prevStay (by omega)
  · intro i hgi
    have hk : List.indexOf cur st.dates = i := indexOf_eq_of_get? h1 hgi
    refine ⟨?_, ?_, ?_, ?_⟩
    · intro hlt1
      have hlt1' : List.indexOf cur st.dates + 1 < st.dates.length := by omega
      rw [movePrev hlt1' hlt1', List.get?_eq_get (by omega : i + 1 < st.dates.length)]
      exact congrArg some (congrArg st.dates.get (Fin.ext (by simp [hk])))
    · intro heq
      exact prevStay (by omega)
    · intro hpos
      have hpos' : 0 < List.indexOf cur st.dates := by omega
      have hlt1' : List.indexOf cur st.dates - 1 < st.dates.length := by omega
      rw [moveNext hpos' hlt1', List.get?_eq_get (by omega : i - 1 < st.dates.length)]
      exact congrArg some (congrArg st.dates.get (Fin.ext (by simp [hk])))
    · intro h0
      exact nextStay (by omega)

/-- C4 witness: the statement at a concrete two-date state positioned on
the newest date. -/
theorem c4_nav_bounds_witness :
    (∃ d ∈ ["2025-01-02", "2025-01-01"],
      (prevHandler { currentDate := some "2025-01-02", dates := ["2025-01-02", "2025-01-01"] }).currentDate = some d)
    ∧ (∃ d ∈ ["2025-01-02", "2025-01-01"],
      (nextHandler { currentDate := some "2025-01-02", dates := ["2025-01-02", "2025-01-01"] }).currentDate = some d)
    ∧ ((["2025-01-02", "2025-01-01"] : List String).head? = some "2025-01-02" →
      nextHandler { currentDate := some "2025-01-02", dates := ["2025-01-02", "2025-01-01"] }
        = { currentDate := some "2025-01-02", dates := ["2025-01-02", "2025-01-01"] })
    ∧ ((["2025-01-02", "2025-01-01"] : List String).getLast? = some "2025-01-02" →
      prevHandler { currentDate := some "2025-01-02", dates := ["2025-01-02", "2025-01-01"] }
        = { currentDate := some "2025-01-02", dates := ["2025-01-02", "2025-01-01"] })
    ∧ (∀ i : Nat, (["2025-01-02", "2025-01-01"] : List String).get? i = some "2025-01-02" →
        (i + 1 < (["2025-01-02", "2025-01-01"] : List String).length →
          (prevHandler { currentDate := some "2025-01-02", dates := ["2025-01-02", "2025-01-01"] }).currentDate
            = (["2025-01-02", "2025-01-01"] : List String).get? (i + 1))
        ∧ (i + 1 = (["2025-01-02", "2025-01-01"] : List String).length →
          prevHandler { currentDate := some "2025-01-02", dates := ["2025-01-02", "2025-01-01"] }
            = { currentDate := some "2025-01-02", dates := ["2025-01-02", "2025-01-01"] })
        ∧ (0 < i →
          (nextHandler { currentDate := some "2025-01-02", dates := ["2025-01-02", "2025-01-01"] }).currentDate
            = (["2025-01-02", "2025-01-01"] : List String).get? (i - 1))
        ∧ (i = 0 →
          nextHandler { currentDate := some "2025-01-02", dates := ["2025-01-02", "2025-01-01"] }
            = { currentDate := some "2025-01-02", dates := ["2025-01-02", "2025-01-01"] })) :=
  c4_nav_bounds { currentDate := some "2025-01-02", dates := ["2025-01-02", "2025-01-01"] }
    "2025-01-02" (by decide) (by decide) rfl (by decide)

end AINews
